import Mathlib

/-!
Shallow embedding of the cinema ticket-ordering service
(files cinema/serializers.py and cinema/views.py).

The relational store is modelled as a record of lists of rows.  Primary
keys are modelled as integers handed out by monotone per-table counters,
as the underlying database does.  Machine integers of the source are
Python integers, so plain Int is the faithful carrier.

Record deletion cascades (a deleted hall removes its sessions, a deleted
session removes its tickets, a deleted order removes its tickets) and the
nonnegativity of the hall geometry fields are taken from the model layer,
which is referenced but not shipped with the two source files; they follow
the standard referential-integrity reading stated in the specification
(section 3, "standard referential integrity", and the capacity formula of
section 4.1).
-/

namespace Cinema

/-- Row of the CinemaHall table: name is irrelevant to the verified
properties and omitted; rows and seats_in_row are the hall geometry. -/
structure CinemaHall where
  id : Int
  rows : Int
  seats_in_row : Int
  deriving DecidableEq

/-- Row of the MovieSession table; movie and show_time take no part in the
verified properties and are omitted.  cinema_hall is the hall primary key. -/
structure MovieSession where
  id : Int
  cinema_hall : Int
  deriving DecidableEq

/-- Row of the Order table; created_at is the creation timestamp
(auto_now_add), user the owning user primary key. -/
structure Order where
  id : Int
  user : Int
  created_at : Int
  deriving DecidableEq

/-- Row of the Ticket table: a seat (row, seat) reserved for one movie
session, belonging to one order; movie_session and order are foreign keys. -/
structure Ticket where
  row : Int
  seat : Int
  movie_session : Int
  order : Int
  deriving DecidableEq

/-- The relational store: one list of rows per table, plus the primary-key
counters the database uses to assign fresh ids. -/
structure DB where
  halls : List CinemaHall
  sessions : List MovieSession
  orders : List Order
  tickets : List Ticket
  next_hall_id : Int
  next_session_id : Int
  next_order_id : Int
  deriving DecidableEq

/-- The store before any request has been served. -/
def emptyDB : DB :=
  { halls := [], sessions := [], orders := [], tickets := []
    next_hall_id := 1, next_session_id := 1, next_order_id := 1 }

/-- Primary-key lookup in the CinemaHall table. -/
def findHall (db : DB) (i : Int) : Option CinemaHall :=
  db.halls.find? (fun h => h.id == i)

/-- Primary-key lookup in the MovieSession table (what a
PrimaryKeyRelatedField resolution performs). -/
def findSession (db : DB) (i : Int) : Option MovieSession :=
  db.sessions.find? (fun s => s.id == i)

/-- One submitted ticket of an order request: the payload accepted by
TicketCreateSerializer, with movie_session the submitted session pk. -/
structure TicketReq where
  row : Int
  seat : Int
  movie_session : Int
  deriving DecidableEq

/-- Validation failures raised by the serializers (serializers.py).
invalidSession models a failed PrimaryKeyRelatedField resolution;
missingHall models a dangling cinema_hall reference, which referential
integrity rules out on real stores but which the total model must cover. -/
inductive ValErr where
  | invalidSession
  | missingHall
  | rowOutOfRange
  | seatOutOfRange
  | placeTaken
  | duplicateInRequest
  deriving DecidableEq

/-- TicketCreateSerializer.validate (serializers.py lines 195-218): resolve
the session and its hall, check the row bound, then the seat bound, then
whether a ticket with the same (session, row, seat) already exists. -/
def TicketCreateSerializer.validate (db : DB) (attrs : TicketReq) :
    Except ValErr TicketReq :=
  match findSession db attrs.movie_session with
  | none => .error .invalidSession
  | some s =>
    match findHall db s.cinema_hall with
    | none => .error .missingHall
    | some cinema_hall =>
      if attrs.row < 1 ∨ attrs.row > cinema_hall.rows then
        .error .rowOutOfRange
      else if attrs.seat < 1 ∨ attrs.seat > cinema_hall.seats_in_row then
        .error .seatOutOfRange
      else if ∃ t ∈ db.tickets, t.movie_session = attrs.movie_session ∧
          t.row = attrs.row ∧ t.seat = attrs.seat then
        .error .placeTaken
      else
        .ok attrs

/-- Child validation of the tickets list field: the ListSerializer runs
TicketCreateSerializer.validate on every submitted item and fails when any
item fails (the source collects every child error before raising; the model
returns the first, which errs exactly when the source errs). -/
def runChildValidation (db : DB) : List TicketReq → Except ValErr Unit
  | [] => .ok ()
  | attrs :: rest =>
    match TicketCreateSerializer.validate db attrs with
    | .error e => .error e
    | .ok _ => runChildValidation db rest

/-- The key a submitted ticket is deduplicated on in
OrderCreateSerializer.validate_tickets: (session pk, row, seat). -/
def ticketReqKey (r : TicketReq) : Int × Int × Int :=
  (r.movie_session, r.row, r.seat)

/-- Loop body of OrderCreateSerializer.validate_tickets (serializers.py
lines 229-242): walk the list keeping the set of keys seen so far and fail
on the first repeated key. -/
def dupScan (seen : List (Int × Int × Int)) : List TicketReq → Except ValErr Unit
  | [] => .ok ()
  | item :: rest =>
    let key := ticketReqKey item
    if key ∈ seen then .error .duplicateInRequest
    else dupScan (key :: seen) rest

/-- OrderCreateSerializer.validate_tickets: reject an order request whose
ticket list repeats a (session, row, seat) key. -/
def OrderCreateSerializer.validate_tickets (tickets : List TicketReq) :
    Except ValErr (List TicketReq) :=
  match dupScan [] tickets with
  | .error e => .error e
  | .ok _ => .ok tickets

/-- Full validation of an order request, in the order the framework runs
it: every child ticket first, then the duplicate scan of validate_tickets. -/
def orderIsValid (db : DB) (tickets : List TicketReq) : Except ValErr Unit :=
  match runChildValidation db tickets with
  | .error e => .error e
  | .ok _ =>
    match OrderCreateSerializer.validate_tickets tickets with
    | .error e => .error e
    | .ok _ => .ok ()

/-- OrderCreateSerializer.create (serializers.py lines 244-257): inside one
transaction, create the order row for the requesting user and bulk-insert
one ticket row per submitted item, each referencing the new order. -/
def OrderCreateSerializer.create (db : DB) (user : Int) (now : Int)
    (tickets_data : List TicketReq) : Int × DB :=
  let oid := db.next_order_id
  let order : Order := { id := oid, user := user, created_at := now }
  let tickets_to_create : List Ticket :=
    tickets_data.map (fun t =>
      { row := t.row, seat := t.seat, movie_session := t.movie_session
        order := oid })
  (oid,
    { db with
        orders := db.orders ++ [order]
        tickets := db.tickets ++ tickets_to_create
        next_order_id := oid + 1 })

/-- The whole POST /orders request: validate, and only on success run the
transactional create; a validation failure leaves the store untouched and
surfaces as an error response. -/
def orderCreateOp (db : DB) (user : Int) (now : Int)
    (tickets : List TicketReq) : Except ValErr Int × DB :=
  match orderIsValid db tickets with
  | .error e => (.error e, db)
  | .ok _ =>
    let r := OrderCreateSerializer.create db user now tickets
    (.ok r.1, r.2)

/-- Annotated session row produced by the MovieSessionViewSet queryset. -/
structure SessionView where
  session_id : Int
  tickets_sold : Int
  hall_capacity : Int
  tickets_available : Int
  deriving DecidableEq

/-- Count annotation of the queryset: the number of distinct ticket rows
referencing the session, which is the number of tickets with this session
as foreign key. -/
def ticketsSold (db : DB) (sid : Int) : Int :=
  ((db.tickets.filter (fun t => t.movie_session == sid)).length : Int)

/-- MovieSessionViewSet queryset annotations (views.py lines 106-120):
tickets_sold counts the tickets of the session, hall_capacity multiplies
the hall geometry fields, tickets_available subtracts the former from the
latter.  The hall row is reached through the cinema_hall foreign key; a
dangling reference yields no annotated row. -/
def annotateSession (db : DB) (s : MovieSession) : Option SessionView :=
  match findHall db s.cinema_hall with
  | none => none
  | some h =>
    let tickets_sold := ticketsSold db s.id
    let hall_capacity := h.rows * h.seats_in_row
    some
      { session_id := s.id
        tickets_sold := tickets_sold
        hall_capacity := hall_capacity
        tickets_available := hall_capacity - tickets_sold }

/-- The GET /movie_sessions list request: evaluate the annotated queryset
over the current store and return it together with the store it leaves
behind, which is the same store — queryset evaluation reads only. -/
def movieSessionList (db : DB) : List SessionView × DB :=
  (db.sessions.filterMap (annotateSession db), db)

/-- OrderViewSet.get_queryset (views.py lines 154-164): the orders of the
requesting user, newest first by created_at. -/
def OrderViewSet.get_queryset (db : DB) (user : Int) : List Order :=
  (db.orders.filter (fun o => o.user == user)).insertionSort
    (fun a b => b.created_at ≤ a.created_at)

/-- The GET /orders list request as serialized by OrderListSerializer: each
order of the requesting user together with its tickets, and the store the
request leaves behind — the same store, the request reads only.
Pagination slices this list and is not modelled. -/
def OrderViewSet.listResponse (db : DB) (user : Int) :
    List (Order × List Ticket) × DB :=
  ((OrderViewSet.get_queryset db user).map
    (fun o => (o, db.tickets.filter (fun t => t.order == o.id))), db)

/-- State-changing requests the deployed view set layer exposes.  Genre,
actor and movie endpoints touch none of the tables the verified properties
mention and are omitted.  CinemaHallViewSet, MovieSessionViewSet and
OrderViewSet are ModelViewSets, so each also routes update and destroy
actions beside create; createOrder carries the requesting user, the
request timestamp and the submitted ticket list. -/
inductive Op where
  | createHall (rows seats : Int)
  | updateHall (id rows seats : Int)
  | destroyHall (id : Int)
  | createSession (hall : Int)
  | updateSession (id hall : Int)
  | destroySession (id : Int)
  | createOrder (user now : Int) (tickets : List TicketReq)
  | destroyOrder (user id : Int)
  deriving DecidableEq

/-- Effect of one request on the store.  Hall geometry fields are
nonnegative integers, so hall writes with a negative field are rejected;
deletes cascade along the foreign keys (hall to sessions to tickets,
session to tickets, order to tickets); destroyOrder goes through
OrderViewSet.get_queryset, so it only reaches an order owned by the
requesting user.  Requests that resolve no row leave the store unchanged. -/
def applyOp (op : Op) (db : DB) : DB :=
  match op with
  | .createHall rows seats =>
    if 0 ≤ rows ∧ 0 ≤ seats then
      { db with
          halls := db.halls ++ [{ id := db.next_hall_id, rows := rows
                                  seats_in_row := seats }]
          next_hall_id := db.next_hall_id + 1 }
    else db
  | .updateHall i rows seats =>
    if (0 ≤ rows ∧ 0 ≤ seats) ∧ (findHall db i).isSome then
      { db with
          halls := db.halls.map (fun h =>
            if h.id == i then { id := h.id, rows := rows, seats_in_row := seats }
            else h) }
    else db
  | .destroyHall i =>
    { db with
        halls := db.halls.filter (fun h => !(h.id == i))
        sessions := db.sessions.filter (fun s => !(s.cinema_hall == i))
        tickets := db.tickets.filter (fun t =>
          !((db.sessions.filter (fun s => s.cinema_hall == i)).any
            (fun s => s.id == t.movie_session))) }
  | .createSession hall =>
    if (findHall db hall).isSome then
      { db with
          sessions := db.sessions ++ [{ id := db.next_session_id
                                        cinema_hall := hall }]
          next_session_id := db.next_session_id + 1 }
    else db
  | .updateSession i hall =>
    if (findSession db i).isSome ∧ (findHall db hall).isSome then
      { db with
          sessions := db.sessions.map (fun s =>
            if s.id == i then { id := s.id, cinema_hall := hall } else s) }
    else db
  | .destroySession i =>
    { db with
        sessions := db.sessions.filter (fun s => !(s.id == i))
        tickets := db.tickets.filter (fun t => !(t.movie_session == i)) }
  | .createOrder user now tickets => (orderCreateOp db user now tickets).2
  | .destroyOrder user i =>
    if db.orders.any (fun o => o.id == i && o.user == user) then
      { db with
          orders := db.orders.filter (fun o => !(o.id == i))
          tickets := db.tickets.filter (fun t => !(t.order == i)) }
    else db

/-- Replay of a request sequence from a given store. -/
def runOps (ops : List Op) (db : DB) : DB :=
  ops.foldl (fun d op => applyOp op d) db

/-- Key a persisted ticket occupies: (session, row, seat). -/
def ticketKey (t : Ticket) : Int × Int × Int :=
  (t.movie_session, t.row, t.seat)

/-- The booking invariant of the specification: no two tickets of one
session share a (row, seat) pair, stated as distinctness of all
(session, row, seat) keys across the ticket table. -/
def SeatUnique (db : DB) : Prop :=
  (db.tickets.map ticketKey).Nodup

/-- Destroy actions of the view set layer. -/
def Op.isDestroy : Op → Bool
  | .destroyHall _ => true
  | .destroySession _ => true
  | .destroyOrder _ _ => true
  | _ => false

/-- Update actions that rewrite hall geometry or move a session between
halls. -/
def Op.isGeometryUpdate : Op → Bool
  | .updateHall _ _ _ => true
  | .updateSession _ _ => true
  | _ => false

/-- Ticket row inserted for one submitted item of a successful order. -/
def mkTicket (oid : Int) (r : TicketReq) : Ticket :=
  { row := r.row, seat := r.seat, movie_session := r.movie_session, order := oid }

/-! ### The global store invariant maintained by the non-geometry requests -/

/-- Store well-formedness: seat uniqueness, key uniqueness per table,
freshness of the id counters, nonnegative hall geometry, and every ticket
within the bounds of the hall its session points to. -/
structure DBInv (db : DB) : Prop where
  seat_unique : SeatUnique db
  halls_nodup : (db.halls.map CinemaHall.id).Nodup
  sessions_nodup : (db.sessions.map MovieSession.id).Nodup
  hall_id_lt : ∀ h ∈ db.halls, h.id < db.next_hall_id
  session_id_lt : ∀ s ∈ db.sessions, s.id < db.next_session_id
  hall_nonneg : ∀ h ∈ db.halls, 0 ≤ h.rows ∧ 0 ≤ h.seats_in_row
  session_hall_lt : ∀ s ∈ db.sessions, s.cinema_hall < db.next_hall_id
  ticket_session_lt : ∀ t ∈ db.tickets, t.movie_session < db.next_session_id
  ticket_bounds : ∀ t ∈ db.tickets,
    ∀ s, findSession db t.movie_session = some s →
    ∀ h, findHall db s.cinema_hall = some h →
      1 ≤ t.row ∧ t.row ≤ h.rows ∧ 1 ≤ t.seat ∧ t.seat ≤ h.seats_in_row

/-- Concrete store used to evaluate the theorems: one 2 by 3 hall, one
session in it, one order of user 1 holding seat (1, 1). -/
def demoDB : DB :=
  { halls := [{ id := 1, rows := 2, seats_in_row := 3 }]
    sessions := [{ id := 1, cinema_hall := 1 }]
    orders := [{ id := 1, user := 1, created_at := 0 }]
    tickets := [{ row := 1, seat := 1, movie_session := 1, order := 1 }]
    next_hall_id := 2, next_session_id := 2, next_order_id := 2 }

/-- The store demoDB after a successful one-ticket order of user 1 for
seat (2, 2). -/
def demoDB2 : DB :=
  { halls := [{ id := 1, rows := 2, seats_in_row := 3 }]
    sessions := [{ id := 1, cinema_hall := 1 }]
    orders := [{ id := 1, user := 1, created_at := 0 },
               { id := 2, user := 1, created_at := 0 }]
    tickets := [{ row := 1, seat := 1, movie_session := 1, order := 1 },
                { row := 2, seat := 2, movie_session := 1, order := 2 }]
    next_hall_id := 2, next_session_id := 2, next_order_id := 3 }

/-- The store demoDB with one extra order of a different user. -/
def demoDBOther : DB :=
  { halls := [{ id := 1, rows := 2, seats_in_row := 3 }]
    sessions := [{ id := 1, cinema_hall := 1 }]
    orders := [{ id := 1, user := 1, created_at := 0 },
               { id := 2, user := 2, created_at := 9 }]
    tickets := [{ row := 1, seat := 1, movie_session := 1, order := 1 }]
    next_hall_id := 2, next_session_id := 2, next_order_id := 3 }

/-! ### Lookup lemmas -/

theorem find_by_id_mem {α : Type} (l : List α) (f : α → Int) (i : Int) (x : α)
    (hx : l.find? (fun a => f a == i) = some x) : x ∈ l ∧ f x = i := by
  refine ⟨List.mem_of_find?_eq_some hx, ?_⟩
  have h := List.find?_some hx
  simpa using h

theorem find_by_id_of_mem {α : Type} (l : List α) (f : α → Int) (x : α)
    (hnd : (l.map f).Nodup) (hx : x ∈ l) :
    l.find? (fun a => f a == f x) = some x := by
  induction l with
  | nil => cases hx
  | cons a l ih =>
    rw [List.map_cons, List.nodup_cons] at hnd
    rcases List.mem_cons.mp hx with rfl | hx'
    · simp [List.find?]
    · have hne : f a ≠ f x := by
        intro heq
        exact hnd.1 (heq ▸ List.mem_map_of_mem f hx')
      have hb : (f a == f x) = false := beq_eq_false_iff_ne.mpr hne
      simp [List.find?, hb, ih hnd.2 hx']

theorem except_unit_cases (x : Except ValErr Unit) :
    x = .ok () ∨ ∃ e, x = .error e := by
  cases x with
  | error e => exact Or.inr ⟨e, rfl⟩
  | ok u => cases u; exact Or.inl rfl

/-! ### Validation lemmas -/

theorem ticketValidate_ok (db : DB) (r r' : TicketReq)
    (h : TicketCreateSerializer.validate db r = .ok r') :
    r' = r ∧
    ∃ s, findSession db r.movie_session = some s ∧
      ∃ hl, findHall db s.cinema_hall = some hl ∧
        1 ≤ r.row ∧ r.row ≤ hl.rows ∧
        1 ≤ r.seat ∧ r.seat ≤ hl.seats_in_row ∧
        ∀ t ∈ db.tickets,
          ¬(t.movie_session = r.movie_session ∧ t.row = r.row ∧ t.seat = r.seat) := by
  unfold TicketCreateSerializer.validate at h
  cases hfs : findSession db r.movie_session with
  | none => rw [hfs] at h; exact absurd h (by simp)
  | some s =>
    rw [hfs] at h
    dsimp only at h
    cases hfh : findHall db s.cinema_hall with
    | none => rw [hfh] at h; exact absurd h (by simp)
    | some hl =>
      rw [hfh] at h
      dsimp only at h
      split_ifs at h with h1 h2 h3
      push_neg at h1 h2 h3
      refine ⟨by injection h with h; exact h.symm, s, rfl, hl, hfh,
        h1.1, h1.2, h2.1, h2.2, ?_⟩
      intro t ht hc
      exact h3 t ht hc.1 hc.2.1 hc.2.2

theorem runChildValidation_ok (db : DB) (l : List TicketReq)
    (h : runChildValidation db l = .ok ()) :
    ∀ r ∈ l, ∃ r', TicketCreateSerializer.validate db r = .ok r' := by
  induction l with
  | nil => intro r hr; cases hr
  | cons a l ih =>
    intro r hr
    unfold runChildValidation at h
    cases hv : TicketCreateSerializer.validate db a with
    | error e => rw [hv] at h; exact absurd h (by simp)
    | ok a' =>
      rw [hv] at h
      rcases List.mem_cons.mp hr with rfl | hr'
      · exact ⟨a', hv⟩
      · exact ih h r hr'

theorem dupScan_ok (l : List TicketReq) :
    ∀ seen, dupScan seen l = .ok () →
      (l.map ticketReqKey).Nodup ∧ ∀ r ∈ l, ticketReqKey r ∉ seen := by
  induction l with
  | nil => intro seen _; exact ⟨List.nodup_nil, by intro r hr; cases hr⟩
  | cons a l ih =>
    intro seen h
    unfold dupScan at h
    dsimp only at h
    split_ifs at h with hmem
    obtain ⟨hnd, hseen⟩ := ih (ticketReqKey a :: seen) h
    refine ⟨List.nodup_cons.mpr ⟨?_, hnd⟩, ?_⟩
    · intro hka
      rcases List.mem_map.mp hka with ⟨r, hr, hkr⟩
      exact hseen r hr (hkr ▸ List.mem_cons_self _ _)
    · intro r hr
      rcases List.mem_cons.mp hr with rfl | hr'
      · exact hmem
      · intro hk
        exact hseen r hr' (List.mem_cons_of_mem _ hk)

theorem orderIsValid_ok (db : DB) (l : List TicketReq)
    (h : orderIsValid db l = .ok ()) :
    runChildValidation db l = .ok () ∧ dupScan [] l = .ok () := by
  unfold orderIsValid at h
  cases hc : runChildValidation db l with
  | error e => rw [hc] at h; exact absurd h (by simp)
  | ok u =>
    cases u
    rw [hc] at h
    unfold OrderCreateSerializer.validate_tickets at h
    cases hd : dupScan [] l with
    | error e => rw [hd] at h; exact absurd h (by simp)
    | ok u => cases u; exact ⟨rfl, rfl⟩

theorem orderCreateOp_of_error (db : DB) (user now : Int) (l : List TicketReq)
    (e : ValErr) (h : orderIsValid db l = .error e) :
    orderCreateOp db user now l = (.error e, db) := by
  unfold orderCreateOp
  rw [h]

theorem orderCreateOp_not_ok (db : DB) (user now : Int) (l : List TicketReq)
    (h : orderIsValid db l ≠ .ok ()) :
    ∃ e, orderCreateOp db user now l = (.error e, db) := by
  rcases except_unit_cases (orderIsValid db l) with hok | ⟨e, he⟩
  · exact absurd hok h
  · exact ⟨e, orderCreateOp_of_error db user now l e he⟩

theorem orderCreateOp_ok (db : DB) (user now : Int) (l : List TicketReq)
    (oid : Int) (db' : DB) (h : orderCreateOp db user now l = (.ok oid, db')) :
    orderIsValid db l = .ok () ∧ oid = db.next_order_id ∧
    db' = { db with
      orders := db.orders ++ [{ id := db.next_order_id, user := user
                                created_at := now }]
      tickets := db.tickets ++ l.map (mkTicket db.next_order_id)
      next_order_id := db.next_order_id + 1 } := by
  unfold orderCreateOp at h
  rcases except_unit_cases (orderIsValid db l) with hok | ⟨e, he⟩
  · rw [hok] at h
    dsimp only [OrderCreateSerializer.create] at h
    rw [Prod.mk.injEq] at h
    obtain ⟨h1, h2⟩ := h
    injection h1 with h1
    exact ⟨hok, h1.symm, h2.symm⟩
  · rw [he] at h
    dsimp only at h
    rw [Prod.mk.injEq] at h
    exact absurd h.1 (by simp)

/-! ### Seat uniqueness preservation -/

theorem seatUnique_create (db : DB) (user now : Int) (l : List TicketReq)
    (hvalid : orderIsValid db l = .ok ()) (hsu : SeatUnique db) :
    SeatUnique (OrderCreateSerializer.create db user now l).2 := by
  obtain ⟨hchild, hdup⟩ := orderIsValid_ok db l hvalid
  unfold SeatUnique OrderCreateSerializer.create
  dsimp only
  rw [List.map_append, List.nodup_append]
  refine ⟨hsu, ?_, ?_⟩
  · rw [List.map_map]
    exact (dupScan_ok l [] hdup).1
  · intro k hk1 hk2
    rcases List.mem_map.mp hk1 with ⟨t, ht, hkt⟩
    rw [List.map_map] at hk2
    rcases List.mem_map.mp hk2 with ⟨r, hr, hkr⟩
    obtain ⟨r', hvr⟩ := runChildValidation_ok db l hchild r hr
    obtain ⟨-, s, -, hl, -, -, -, -, -, htaken⟩ := ticketValidate_ok db r r' hvr
    apply htaken t ht
    have hk : ticketKey t = ticketReqKey r := by
      rw [hkt]
      exact hkr.symm
    unfold ticketKey ticketReqKey at hk
    rw [Prod.mk.injEq, Prod.mk.injEq] at hk
    exact ⟨hk.1, hk.2.1, hk.2.2⟩

theorem seatUnique_applyOp (op : Op) (db : DB) (h : SeatUnique db) :
    SeatUnique (applyOp op db) := by
  have hfilter : ∀ (p : Ticket → Bool),
      ((db.tickets.filter p).map ticketKey).Nodup :=
    fun p => List.Nodup.sublist ((List.filter_sublist db.tickets).map ticketKey) h
  cases op with
  | createHall rows seats =>
    simp only [applyOp]; split_ifs <;> exact h
  | updateHall i rows seats =>
    simp only [applyOp]; split_ifs <;> exact h
  | destroyHall i =>
    simp only [applyOp]; exact hfilter _
  | createSession hall =>
    simp only [applyOp]; split_ifs <;> exact h
  | updateSession i hall =>
    simp only [applyOp]; split_ifs <;> exact h
  | destroySession i =>
    simp only [applyOp]; exact hfilter _
  | createOrder user now l =>
    show SeatUnique (orderCreateOp db user now l).2
    unfold orderCreateOp
    rcases except_unit_cases (orderIsValid db l) with hok | ⟨e, he⟩
    · rw [hok]
      exact seatUnique_create db user now l hok h
    · rw [he]
      exact h
  | destroyOrder user i =>
    simp only [applyOp]; split_ifs <;> first | exact hfilter _ | exact h

/-! ### More lookup lemmas -/

theorem find?_append_fresh {α : Type} (l : List α) (f : α → Int) (i : Int) (x : α)
    (hne : f x ≠ i) :
    (l ++ [x]).find? (fun a => f a == i) = l.find? (fun a => f a == i) := by
  cases hl : l.find? (fun a => f a == i) with
  | some y => simp [List.find?_append, hl]
  | none => simp [List.find?_append, hl, List.find?, beq_eq_false_iff_ne.mpr hne]

theorem find_restrict {α : Type} (l l' : List α) (f : α → Int) (i : Int) (x : α)
    (hnd : (l.map f).Nodup) (hsub : ∀ a ∈ l', a ∈ l)
    (hx : l'.find? (fun a => f a == i) = some x) :
    l.find? (fun a => f a == i) = some x := by
  obtain ⟨hmem, hfx⟩ := find_by_id_mem l' f i x hx
  have h := find_by_id_of_mem l f x hnd (hsub x hmem)
  rwa [hfx] at h

theorem dbInv_empty : DBInv emptyDB := by
  constructor <;> simp [emptyDB, SeatUnique]

theorem dbInv_applyOp (op : Op) (db : DB) (hop : op.isGeometryUpdate = false)
    (hinv : DBInv db) : DBInv (applyOp op db) := by
  cases op with
  | updateHall i rows seats => simp [Op.isGeometryUpdate] at hop
  | updateSession i hall => simp [Op.isGeometryUpdate] at hop
  | createHall rows seats =>
    simp only [applyOp]
    split_ifs with hg
    · refine ⟨hinv.seat_unique, ?_, hinv.sessions_nodup, ?_, hinv.session_id_lt,
        ?_, ?_, hinv.ticket_session_lt, ?_⟩
      · rw [List.map_append, List.nodup_append]
        refine ⟨hinv.halls_nodup, List.nodup_singleton _, ?_⟩
        intro k hk1 hk2
        rcases List.mem_map.mp hk1 with ⟨h0, hh0, rfl⟩
        have hk : h0.id = db.next_hall_id := by simpa using hk2
        exact absurd hk (ne_of_lt (hinv.hall_id_lt h0 hh0))
      · intro h hh
        rcases List.mem_append.mp hh with hh | hh
        · exact lt_trans (hinv.hall_id_lt h hh) (lt_add_one _)
        · have hk : h = { id := db.next_hall_id, rows := rows
                          seats_in_row := seats } := by simpa using hh
          rw [hk]
          exact lt_add_one _
      · intro h hh
        rcases List.mem_append.mp hh with hh | hh
        · exact hinv.hall_nonneg h hh
        · have hk : h = { id := db.next_hall_id, rows := rows
                          seats_in_row := seats } := by simpa using hh
          rw [hk]
          exact hg
      · intro s hs
        exact lt_trans (hinv.session_hall_lt s hs) (lt_add_one _)
      · intro t ht s hfs h hfh
        have hfs2 : findSession db t.movie_session = some s := hfs
        have hsl : s.cinema_hall < db.next_hall_id :=
          hinv.session_hall_lt s (find_by_id_mem _ _ _ _ hfs2).1
        have hfh2 : (db.halls ++
            [({ id := db.next_hall_id, rows := rows
                seats_in_row := seats } : CinemaHall)]).find?
            (fun a => a.id == s.cinema_hall) = some h := hfh
        rw [find?_append_fresh db.halls CinemaHall.id s.cinema_hall _
          (ne_of_gt hsl)] at hfh2
        exact hinv.ticket_bounds t ht s hfs2 h hfh2
    · exact hinv
  | destroyHall i =>
    simp only [applyOp]
    refine ⟨?_, ?_, ?_, ?_, ?_, ?_, ?_, ?_, ?_⟩
    · exact List.Nodup.sublist ((List.filter_sublist _).map _) hinv.seat_unique
    · exact List.Nodup.sublist ((List.filter_sublist _).map _) hinv.halls_nodup
    · exact List.Nodup.sublist ((List.filter_sublist _).map _) hinv.sessions_nodup
    · intro h hh; exact hinv.hall_id_lt h (List.mem_of_mem_filter hh)
    · intro s hs; exact hinv.session_id_lt s (List.mem_of_mem_filter hs)
    · intro h hh; exact hinv.hall_nonneg h (List.mem_of_mem_filter hh)
    · intro s hs; exact hinv.session_hall_lt s (List.mem_of_mem_filter hs)
    · intro t ht; exact hinv.ticket_session_lt t (List.mem_of_mem_filter ht)
    · intro t ht s hfs h hfh
      have hfs2 : db.sessions.find? (fun a => a.id == t.movie_session) = some s :=
        find_restrict db.sessions _ MovieSession.id _ s hinv.sessions_nodup
          (fun a ha => List.mem_of_mem_filter ha) hfs
      have hfh2 : db.halls.find? (fun a => a.id == s.cinema_hall) = some h :=
        find_restrict db.halls _ CinemaHall.id _ h hinv.halls_nodup
          (fun a ha => List.mem_of_mem_filter ha) hfh
      exact hinv.ticket_bounds t (List.mem_of_mem_filter ht) s hfs2 h hfh2
  | createSession hall =>
    simp only [applyOp]
    split_ifs with hg
    · obtain ⟨h0, hh0⟩ := Option.isSome_iff_exists.mp hg
      obtain ⟨hh0mem, hh0id⟩ := find_by_id_mem _ _ _ _ hh0
      refine ⟨hinv.seat_unique, hinv.halls_nodup, ?_, hinv.hall_id_lt, ?_,
        hinv.hall_nonneg, ?_, ?_, ?_⟩
      · rw [List.map_append, List.nodup_append]
        refine ⟨hinv.sessions_nodup, List.nodup_singleton _, ?_⟩
        intro k hk1 hk2
        rcases List.mem_map.mp hk1 with ⟨s0, hs0, rfl⟩
        have hk : s0.id = db.next_session_id := by simpa using hk2
        exact absurd hk (ne_of_lt (hinv.session_id_lt s0 hs0))
      · intro s hs
        rcases List.mem_append.mp hs with hs | hs
        · exact lt_trans (hinv.session_id_lt s hs) (lt_add_one _)
        · have hk : s = { id := db.next_session_id, cinema_hall := hall } := by
            simpa using hs
          rw [hk]
          exact lt_add_one _
      · intro s hs
        rcases List.mem_append.mp hs with hs | hs
        · exact hinv.session_hall_lt s hs
        · have hk : s = { id := db.next_session_id, cinema_hall := hall } := by
            simpa using hs
          rw [hk]
          dsimp only
          rw [← hh0id]
          exact hinv.hall_id_lt h0 hh0mem
      · intro t ht
        exact lt_trans (hinv.ticket_session_lt t ht) (lt_add_one _)
      · intro t ht s hfs h hfh
        have hne : MovieSession.id { id := db.next_session_id, cinema_hall := hall }
            ≠ t.movie_session := ne_of_gt (hinv.ticket_session_lt t ht)
        have hfs2 : (db.sessions ++
            [({ id := db.next_session_id
                cinema_hall := hall } : MovieSession)]).find?
            (fun a => a.id == t.movie_session) = some s := hfs
        rw [find?_append_fresh db.sessions MovieSession.id t.movie_session _ hne]
          at hfs2
        exact hinv.ticket_bounds t ht s hfs2 h hfh
    · exact hinv
  | destroySession i =>
    simp only [applyOp]
    refine ⟨?_, hinv.halls_nodup, ?_, hinv.hall_id_lt, ?_, hinv.hall_nonneg,
      ?_, ?_, ?_⟩
    · exact List.Nodup.sublist ((List.filter_sublist _).map _) hinv.seat_unique
    · exact List.Nodup.sublist ((List.filter_sublist _).map _) hinv.sessions_nodup
    · intro s hs; exact hinv.session_id_lt s (List.mem_of_mem_filter hs)
    · intro s hs; exact hinv.session_hall_lt s (List.mem_of_mem_filter hs)
    · intro t ht; exact hinv.ticket_session_lt t (List.mem_of_mem_filter ht)
    · intro t ht s hfs h hfh
      have hfs2 : db.sessions.find? (fun a => a.id == t.movie_session) = some s :=
        find_restrict db.sessions _ MovieSession.id _ s hinv.sessions_nodup
          (fun a ha => List.mem_of_mem_filter ha) hfs
      exact hinv.ticket_bounds t (List.mem_of_mem_filter ht) s hfs2 h hfh
  | createOrder user now l =>
    show DBInv (orderCreateOp db user now l).2
    unfold orderCreateOp
    rcases except_unit_cases (orderIsValid db l) with hok | ⟨e, he⟩
    · rw [hok]
      dsimp only [OrderCreateSerializer.create]
      obtain ⟨hchild, hdup⟩ := orderIsValid_ok db l hok
      refine ⟨seatUnique_create db user now l hok hinv.seat_unique,
        hinv.halls_nodup, hinv.sessions_nodup, hinv.hall_id_lt,
        hinv.session_id_lt, hinv.hall_nonneg, hinv.session_hall_lt, ?_, ?_⟩
      · intro t ht
        rcases List.mem_append.mp ht with ht | ht
        · exact hinv.ticket_session_lt t ht
        · rcases List.mem_map.mp ht with ⟨r, hr, rfl⟩
          obtain ⟨r', hvr⟩ := runChildValidation_ok db l hchild r hr
          obtain ⟨-, s, hfs, hl0, -, -, -, -, -, -⟩ := ticketValidate_ok db r r' hvr
          obtain ⟨hsmem, hsid⟩ := find_by_id_mem _ _ _ _ hfs
          dsimp only
          rw [← hsid]
          exact hinv.session_id_lt s hsmem
      · intro t ht s hfs h hfh
        have hfs2 : findSession db t.movie_session = some s := hfs
        have hfh2 : findHall db s.cinema_hall = some h := hfh
        rcases List.mem_append.mp ht with ht | ht
        · exact hinv.ticket_bounds t ht s hfs2 h hfh2
        · rcases List.mem_map.mp ht with ⟨r, hr, rfl⟩
          obtain ⟨r', hvr⟩ := runChildValidation_ok db l hchild r hr
          obtain ⟨-, s0, hfs0, hl0, hfh0, hb1, hb2, hb3, hb4, -⟩ :=
            ticketValidate_ok db r r' hvr
          have hseq : s = s0 := by
            have hss := hfs2.symm.trans hfs0
            exact Option.some.inj hss
          have hheq : h = hl0 := by
            rw [hseq] at hfh2
            exact Option.some.inj (hfh2.symm.trans hfh0)
          rw [hheq]
          exact ⟨hb1, hb2, hb3, hb4⟩
    · rw [he]
      exact hinv
  | destroyOrder user i =>
    simp only [applyOp]
    split_ifs with hd
    · refine ⟨?_, hinv.halls_nodup, hinv.sessions_nodup, hinv.hall_id_lt,
        hinv.session_id_lt, hinv.hall_nonneg, hinv.session_hall_lt, ?_, ?_⟩
      · exact List.Nodup.sublist ((List.filter_sublist _).map _) hinv.seat_unique
      · intro t ht; exact hinv.ticket_session_lt t (List.mem_of_mem_filter ht)
      · intro t ht s hfs h hfh
        exact hinv.ticket_bounds t (List.mem_of_mem_filter ht) s hfs h hfh
    · exact hinv

theorem dbInv_runOps (ops : List Op) (db : DB)
    (hops : ∀ op ∈ ops, op.isGeometryUpdate = false) (hdb : DBInv db) :
    DBInv (runOps ops db) := by
  induction ops generalizing db with
  | nil => exact hdb
  | cons op ops ih =>
    exact ih (applyOp op db) (fun o ho => hops o (List.mem_cons_of_mem _ ho))
      (dbInv_applyOp op db (hops op (List.mem_cons_self _ _)) hdb)

/-! ### Counting seats: sold tickets never exceed the hall capacity -/

theorem nodup_snd_of_const_fst {β : Type} (c : Int) :
    ∀ K : List (Int × β), K.Nodup → (∀ k ∈ K, k.1 = c) →
      (K.map Prod.snd).Nodup := by
  intro K
  induction K with
  | nil => intro _ _; exact List.nodup_nil
  | cons k K ih =>
    intro hnd hfst
    rw [List.nodup_cons] at hnd
    rw [List.map_cons, List.nodup_cons]
    refine ⟨?_, ih hnd.2 (fun a ha => hfst a (List.mem_cons_of_mem _ ha))⟩
    intro hk2
    rcases List.mem_map.mp hk2 with ⟨k', hk', hsnd⟩
    have h1 : k'.1 = k.1 := by
      rw [hfst k' (List.mem_cons_of_mem _ hk'), hfst k (List.mem_cons_self _ _)]
    have : k' = k := Prod.ext h1 hsnd
    exact hnd.1 (this ▸ hk')

theorem ticketsSold_le_capacity (db : DB) (hinv : DBInv db) (s : MovieSession)
    (hs : s ∈ db.sessions) (h : CinemaHall)
    (hfh : findHall db s.cinema_hall = some h) :
    ticketsSold db s.id ≤ h.rows * h.seats_in_row := by
  have hsub : List.Sublist
      ((db.tickets.filter (fun t => t.movie_session == s.id)).map ticketKey)
      (db.tickets.map ticketKey) :=
    (List.filter_sublist _).map _
  have hndK := List.Nodup.sublist hsub hinv.seat_unique
  have hfst : ∀ k ∈ (db.tickets.filter
      (fun t => t.movie_session == s.id)).map ticketKey, k.1 = s.id := by
    intro k hk
    rcases List.mem_map.mp hk with ⟨t, ht, rfl⟩
    have hf := (List.mem_filter.mp ht).2
    simpa [ticketKey] using hf
  have hpairs := nodup_snd_of_const_fst s.id _ hndK hfst
  have hgrid : ∀ p ∈ ((db.tickets.filter
      (fun t => t.movie_session == s.id)).map ticketKey).map Prod.snd,
      p ∈ Finset.Icc (1 : Int) h.rows ×ˢ Finset.Icc (1 : Int) h.seats_in_row := by
    intro p hp
    rcases List.mem_map.mp hp with ⟨k, hk, rfl⟩
    rcases List.mem_map.mp hk with ⟨t, ht, rfl⟩
    obtain ⟨htm, htid⟩ := List.mem_filter.mp ht
    have htid2 : t.movie_session = s.id := by simpa using htid
    have hfs : findSession db t.movie_session = some s := by
      rw [htid2]
      exact find_by_id_of_mem db.sessions MovieSession.id s hinv.sessions_nodup hs
    obtain ⟨hb1, hb2, hb3, hb4⟩ := hinv.ticket_bounds t htm s hfs h hfh
    rw [Finset.mem_product]
    exact ⟨Finset.mem_Icc.mpr ⟨hb1, hb2⟩, Finset.mem_Icc.mpr ⟨hb3, hb4⟩⟩
  have hcard : (((db.tickets.filter
      (fun t => t.movie_session == s.id)).map ticketKey).map
        Prod.snd).toFinset.card ≤
      (Finset.Icc (1 : Int) h.rows ×ˢ Finset.Icc (1 : Int) h.seats_in_row).card := by
    apply Finset.card_le_card
    intro p hp
    exact hgrid p (List.mem_toFinset.mp hp)
  rw [List.toFinset_card_of_nodup hpairs, List.length_map, List.length_map,
    Finset.card_product, Int.card_Icc, Int.card_Icc] at hcard
  obtain ⟨hr0, hs0⟩ := hinv.hall_nonneg h (find_by_id_mem _ _ _ _ hfh).1
  have hcast : (((h.rows + 1 - 1).toNat * (h.seats_in_row + 1 - 1).toNat : Nat) : Int)
      = h.rows * h.seats_in_row := by
    have e1 : h.rows + 1 - 1 = h.rows := by ring
    have e2 : h.seats_in_row + 1 - 1 = h.seats_in_row := by ring
    rw [e1, e2]
    push_cast [Int.toNat_of_nonneg hr0, Int.toNat_of_nonneg hs0]
    ring
  unfold ticketsSold
  calc ((db.tickets.filter (fun t => t.movie_session == s.id)).length : Int)
      ≤ (((h.rows + 1 - 1).toNat * (h.seats_in_row + 1 - 1).toNat : Nat) : Int) := by
        exact_mod_cast hcard
    _ = h.rows * h.seats_in_row := hcast

/-! ### Claim theorems -/

/-- C1: for every movie session whose hall resolves, the tickets_available
value the annotated queryset computes equals hall.rows times
hall.seats_in_row minus the number of tickets referencing that session,
and evaluating the session list leaves the store unchanged. -/
theorem tickets_available_eq_capacity_minus_sold (db : DB) (s : MovieSession)
    (hs : s ∈ db.sessions) (h : CinemaHall)
    (hfh : findHall db s.cinema_hall = some h) :
    (∃ v, annotateSession db s = some v ∧
      v ∈ (movieSessionList db).1 ∧
      v.tickets_available = h.rows * h.seats_in_row -
        ((db.tickets.filter (fun t => t.movie_session == s.id)).length : Int)) ∧
    (movieSessionList db).2 = db := by
  have hv : annotateSession db s = some
      { session_id := s.id
        tickets_sold := ticketsSold db s.id
        hall_capacity := h.rows * h.seats_in_row
        tickets_available := h.rows * h.seats_in_row - ticketsSold db s.id } := by
    unfold annotateSession
    rw [hfh]
  exact ⟨⟨_, hv, List.mem_filterMap.mpr ⟨s, hs, hv⟩, rfl⟩, rfl⟩

/-- C2: a submitted triple whose row or seat lies outside the bounds of the
hall of its session makes order creation fail with a validation error,
leaving the store unchanged. -/
theorem out_of_range_ticket_rejects_order (db : DB) (user now : Int)
    (tickets : List TicketReq) (r : TicketReq) (hr : r ∈ tickets)
    (s : MovieSession) (hfs : findSession db r.movie_session = some s)
    (h : CinemaHall) (hfh : findHall db s.cinema_hall = some h)
    (hout : r.row < 1 ∨ r.row > h.rows ∨ r.seat < 1 ∨ r.seat > h.seats_in_row) :
    ∃ e, orderCreateOp db user now tickets = (.error e, db) := by
  apply orderCreateOp_not_ok
  intro hok
  obtain ⟨hchild, -⟩ := orderIsValid_ok db tickets hok
  obtain ⟨r', hvr⟩ := runChildValidation_ok db tickets hchild r hr
  obtain ⟨-, s0, hfs0, h0, hfh0, hb1, hb2, hb3, hb4, -⟩ :=
    ticketValidate_ok db r r' hvr
  have hs0 : s0 = s := Option.some.inj (hfs0.symm.trans hfs)
  subst hs0
  have hh0 : h0 = h := Option.some.inj (hfh0.symm.trans hfh)
  subst hh0
  rcases hout with hc | hc | hc | hc <;> omega

/-- C3: a submitted triple whose seat is already taken by a persisted
ticket of the same session makes order creation fail with a validation
error, leaving the store unchanged. -/
theorem taken_seat_rejects_order (db : DB) (user now : Int)
    (tickets : List TicketReq) (r : TicketReq) (hr : r ∈ tickets)
    (t : Ticket) (ht : t ∈ db.tickets) (hms : t.movie_session = r.movie_session)
    (hrow : t.row = r.row) (hseat : t.seat = r.seat) :
    ∃ e, orderCreateOp db user now tickets = (.error e, db) := by
  apply orderCreateOp_not_ok
  intro hok
  obtain ⟨hchild, -⟩ := orderIsValid_ok db tickets hok
  obtain ⟨r', hvr⟩ := runChildValidation_ok db tickets hchild r hr
  obtain ⟨-, s0, -, h0, -, -, -, -, -, htaken⟩ := ticketValidate_ok db r r' hvr
  exact htaken t ht ⟨hms, hrow, hseat⟩

/-- C4: an order request whose ticket list repeats a (session, row, seat)
triple fails with a validation error, leaving the store unchanged. -/
theorem duplicate_in_request_rejects_order (db : DB) (user now : Int)
    (tickets : List TicketReq)
    (hdup : ¬ (tickets.map ticketReqKey).Nodup) :
    ∃ e, orderCreateOp db user now tickets = (.error e, db) := by
  apply orderCreateOp_not_ok
  intro hok
  obtain ⟨-, hd⟩ := orderIsValid_ok db tickets hok
  exact hdup (dupScan_ok tickets [] hd).1

/-- C5: order creation is all or nothing: either it fails and the store is
exactly the one before the request, or it succeeds, appends one order row
for the requesting user and one ticket row per submitted item referencing
the new order, and touches nothing else. -/
theorem order_creation_all_or_nothing (db : DB) (user now : Int)
    (tickets : List TicketReq) :
    (∃ e, orderCreateOp db user now tickets = (.error e, db)) ∨
    (∃ oid db2, orderCreateOp db user now tickets = (.ok oid, db2) ∧
      db2.orders = db.orders ++ [{ id := oid, user := user, created_at := now }] ∧
      db2.tickets = db.tickets ++ tickets.map (mkTicket oid) ∧
      db2.halls = db.halls ∧ db2.sessions = db.sessions) := by
  rcases except_unit_cases (orderIsValid db tickets) with hok | ⟨e, he⟩
  · right
    refine ⟨db.next_order_id, (OrderCreateSerializer.create db user now tickets).2,
      ?_, rfl, rfl, rfl, rfl⟩
    unfold orderCreateOp
    rw [hok]
    rfl
  · exact Or.inl ⟨e, orderCreateOp_of_error db user now tickets e he⟩

/-- C6: a successful order persists exactly as many tickets referencing
the new order as there were submitted triples. -/
theorem successful_order_persists_submitted_count (db : DB) (user now : Int)
    (tickets : List TicketReq)
    (hfresh : ∀ t ∈ db.tickets, t.order ≠ db.next_order_id)
    (oid : Int) (db2 : DB)
    (hok : orderCreateOp db user now tickets = (.ok oid, db2)) :
    (db2.tickets.filter (fun t => t.order == oid)).length = tickets.length := by
  obtain ⟨hvalid, hoid, hdb2⟩ := orderCreateOp_ok db user now tickets oid db2 hok
  subst hoid
  rw [hdb2]
  dsimp only
  rw [List.filter_append]
  have h1 : db.tickets.filter (fun t => t.order == db.next_order_id) = [] := by
    rw [List.filter_eq_nil_iff]
    intro t ht
    simp [hfresh t ht]
  have h2 : (tickets.map (mkTicket db.next_order_id)).filter
      (fun t => t.order == db.next_order_id) =
      tickets.map (mkTicket db.next_order_id) := by
    rw [List.filter_eq_self]
    intro t ht
    rcases List.mem_map.mp ht with ⟨r, hr, rfl⟩
    simp [mkTicket]
  rw [h1, h2, List.nil_append, List.length_map]

/-- C7: every request of the view set layer preserves the invariant that
no two tickets of one session occupy the same (row, seat) pair. -/
theorem seat_uniqueness_preserved_by_every_request (op : Op) (db : DB)
    (h : SeatUnique db) : SeatUnique (applyOp op db) :=
  seatUnique_applyOp op db h

/-- C8 counterexample: a reachable state in which a session has negative
tickets_available: book both seats of a 2 by 1 hall, then shrink the hall
to 1 by 1 through the exposed hall update action. -/
theorem tickets_available_negative_after_hall_shrink :
    ({ id := 1, cinema_hall := 1 } : MovieSession) ∈
      (runOps [.createHall 2 1, .createSession 1,
        .createOrder 1 0 [⟨1, 1, 1⟩, ⟨2, 1, 1⟩], .updateHall 1 1 1]
        emptyDB).sessions ∧
    annotateSession
      (runOps [.createHall 2 1, .createSession 1,
        .createOrder 1 0 [⟨1, 1, 1⟩, ⟨2, 1, 1⟩], .updateHall 1 1 1] emptyDB)
      { id := 1, cinema_hall := 1 } =
      some { session_id := 1, tickets_sold := 2, hall_capacity := 1
             tickets_available := -1 } := by
  exact ⟨by decide, rfl⟩

/-- C8 amended: in every state reachable without the hall and session
update actions, tickets_available is nonnegative for every session. -/
theorem tickets_available_nonneg_without_geometry_updates (ops : List Op)
    (hops : ∀ op ∈ ops, op.isGeometryUpdate = false)
    (s : MovieSession) (hs : s ∈ (runOps ops emptyDB).sessions)
    (v : SessionView) (hv : annotateSession (runOps ops emptyDB) s = some v) :
    0 ≤ v.tickets_available := by
  have hinv := dbInv_runOps ops emptyDB hops dbInv_empty
  unfold annotateSession at hv
  cases hfh : findHall (runOps ops emptyDB) s.cinema_hall with
  | none => rw [hfh] at hv; exact absurd hv (by simp)
  | some h =>
    rw [hfh] at hv
    dsimp only at hv
    injection hv with hv
    rw [← hv]
    dsimp only
    exact sub_nonneg.mpr (ticketsSold_le_capacity (runOps ops emptyDB) hinv s hs h hfh)

/-- C9 counterexample: the order view set is a ModelViewSet, so it exposes
a destroy action; destroying a persisted order removes the order and its
ticket from the store. -/
theorem destroy_removes_persisted_order :
    ({ id := 1, user := 7, created_at := 5 } : Order) ∈
      (runOps [.createHall 1 1, .createSession 1, .createOrder 7 5 [⟨1, 1, 1⟩]]
        emptyDB).orders ∧
    ({ row := 1, seat := 1, movie_session := 1, order := 1 } : Ticket) ∈
      (runOps [.createHall 1 1, .createSession 1, .createOrder 7 5 [⟨1, 1, 1⟩]]
        emptyDB).tickets ∧
    ({ id := 1, user := 7, created_at := 5 } : Order) ∉
      (applyOp (.destroyOrder 7 1)
        (runOps [.createHall 1 1, .createSession 1, .createOrder 7 5 [⟨1, 1, 1⟩]]
          emptyDB)).orders ∧
    ({ row := 1, seat := 1, movie_session := 1, order := 1 } : Ticket) ∉
      (applyOp (.destroyOrder 7 1)
        (runOps [.createHall 1 1, .createSession 1, .createOrder 7 5 [⟨1, 1, 1⟩]]
          emptyDB)).tickets := by
  decide

/-- C9 amended: no request modifies a persisted order or ticket row, and
every request other than the destroy actions of the ModelViewSets keeps
every previously persisted order and ticket in the store. -/
theorem non_destroy_requests_preserve_orders_and_tickets (op : Op) (db : DB)
    (hop : op.isDestroy = false) :
    (∀ o ∈ db.orders, o ∈ (applyOp op db).orders) ∧
    (∀ t ∈ db.tickets, t ∈ (applyOp op db).tickets) := by
  cases op with
  | destroyHall i => simp [Op.isDestroy] at hop
  | destroySession i => simp [Op.isDestroy] at hop
  | destroyOrder u i => simp [Op.isDestroy] at hop
  | createHall rows seats =>
    simp only [applyOp]
    split_ifs <;> exact ⟨fun o ho => ho, fun t ht => ht⟩
  | updateHall i rows seats =>
    simp only [applyOp]
    split_ifs <;> exact ⟨fun o ho => ho, fun t ht => ht⟩
  | createSession hall =>
    simp only [applyOp]
    split_ifs <;> exact ⟨fun o ho => ho, fun t ht => ht⟩
  | updateSession i hall =>
    simp only [applyOp]
    split_ifs <;> exact ⟨fun o ho => ho, fun t ht => ht⟩
  | createOrder user now l =>
    simp only [applyOp]
    unfold orderCreateOp
    rcases except_unit_cases (orderIsValid db l) with hok | ⟨e, he⟩
    · rw [hok]
      dsimp only [OrderCreateSerializer.create]
      exact ⟨fun o ho => List.mem_append_left _ ho,
        fun t ht => List.mem_append_left _ ht⟩
    · rw [he]
      exact ⟨fun o ho => ho, fun t ht => ht⟩

/-- C10: the order list request returns only orders of the requesting
user, and its response is unchanged when only the orders and tickets of
other users differ between two stores. -/
theorem order_list_returns_only_own_orders (db db2 : DB) (u : Int)
    (horders : db.orders.filter (fun o => o.user == u) =
      db2.orders.filter (fun o => o.user == u))
    (htickets : ∀ o ∈ db.orders, o.user = u →
      db.tickets.filter (fun t => t.order == o.id) =
        db2.tickets.filter (fun t => t.order == o.id)) :
    (∀ p ∈ (OrderViewSet.listResponse db u).1, p.1.user = u) ∧
    (OrderViewSet.listResponse db u).1 = (OrderViewSet.listResponse db2 u).1 := by
  have hqs : OrderViewSet.get_queryset db u = OrderViewSet.get_queryset db2 u := by
    unfold OrderViewSet.get_queryset
    rw [horders]
  have hmemq : ∀ o ∈ OrderViewSet.get_queryset db u, o ∈ db.orders ∧ o.user = u := by
    intro o ho
    have hof : o ∈ db.orders.filter (fun o => o.user == u) :=
      (List.perm_insertionSort _ _).subset ho
    obtain ⟨hmem, hbeq⟩ := List.mem_filter.mp hof
    exact ⟨hmem, by simpa using hbeq⟩
  constructor
  · intro p hp
    rcases List.mem_map.mp hp with ⟨o, ho, rfl⟩
    exact (hmemq o ho).2
  · unfold OrderViewSet.listResponse
    dsimp only
    rw [← hqs]
    apply List.map_congr_left
    intro o ho
    obtain ⟨hmem, huser⟩ := hmemq o ho
    rw [htickets o hmem huser]

/-! ### Concrete evaluations of the claim theorems -/

/-- C1 evaluated on demoDB: capacity 6, one ticket sold, 5 available. -/
theorem tickets_available_eq_capacity_minus_sold_check :
    ({ id := 1, cinema_hall := 1 } : MovieSession) ∈ demoDB.sessions ∧
    findHall demoDB 1 = some { id := 1, rows := 2, seats_in_row := 3 } ∧
    ((∃ v, annotateSession demoDB { id := 1, cinema_hall := 1 } = some v ∧
      v ∈ (movieSessionList demoDB).1 ∧
      v.tickets_available = 2 * 3 -
        ((demoDB.tickets.filter (fun t => t.movie_session == 1)).length : Int)) ∧
    (movieSessionList demoDB).2 = demoDB) :=
  ⟨by decide, by decide,
    tickets_available_eq_capacity_minus_sold demoDB { id := 1, cinema_hall := 1 }
      (by decide) { id := 1, rows := 2, seats_in_row := 3 } (by decide)⟩

/-- C2 evaluated on demoDB: row 3 exceeds the 2 rows of the hall. -/
theorem out_of_range_ticket_rejects_order_check :
    (⟨3, 1, 1⟩ : TicketReq) ∈ [(⟨3, 1, 1⟩ : TicketReq)] ∧
    findSession demoDB 1 = some { id := 1, cinema_hall := 1 } ∧
    findHall demoDB 1 = some { id := 1, rows := 2, seats_in_row := 3 } ∧
    ((3 : Int) < 1 ∨ (3 : Int) > 2 ∨ (1 : Int) < 1 ∨ (1 : Int) > 3) ∧
    ∃ e, orderCreateOp demoDB 1 0 [⟨3, 1, 1⟩] = (.error e, demoDB) :=
  ⟨by decide, by decide, by decide, by decide,
    out_of_range_ticket_rejects_order demoDB 1 0 [⟨3, 1, 1⟩] ⟨3, 1, 1⟩
      (by decide) { id := 1, cinema_hall := 1 } (by decide)
      { id := 1, rows := 2, seats_in_row := 3 } (by decide) (by decide)⟩

/-- C3 evaluated on demoDB: seat (1, 1) of session 1 is already taken. -/
theorem taken_seat_rejects_order_check :
    (⟨1, 1, 1⟩ : TicketReq) ∈ [(⟨1, 1, 1⟩ : TicketReq)] ∧
    ({ row := 1, seat := 1, movie_session := 1, order := 1 } : Ticket)
      ∈ demoDB.tickets ∧
    ∃ e, orderCreateOp demoDB 1 0 [⟨1, 1, 1⟩] = (.error e, demoDB) :=
  ⟨by decide, by decide,
    taken_seat_rejects_order demoDB 1 0 [⟨1, 1, 1⟩] ⟨1, 1, 1⟩ (by decide)
      { row := 1, seat := 1, movie_session := 1, order := 1 } (by decide)
      (by decide) (by decide) (by decide)⟩

/-- C4 evaluated on demoDB: the same free seat submitted twice. -/
theorem duplicate_in_request_rejects_order_check :
    (¬ (([⟨2, 2, 1⟩, ⟨2, 2, 1⟩] : List TicketReq).map ticketReqKey).Nodup) ∧
    ∃ e, orderCreateOp demoDB 1 0 [⟨2, 2, 1⟩, ⟨2, 2, 1⟩] = (.error e, demoDB) :=
  ⟨by decide,
    duplicate_in_request_rejects_order demoDB 1 0 [⟨2, 2, 1⟩, ⟨2, 2, 1⟩]
      (by decide)⟩

/-- C6 evaluated on demoDB: one submitted triple, one persisted ticket of
the new order. -/
theorem successful_order_persists_submitted_count_check :
    (∀ t ∈ demoDB.tickets, t.order ≠ demoDB.next_order_id) ∧
    orderCreateOp demoDB 1 0 [⟨2, 2, 1⟩] = (.ok 2, demoDB2) ∧
    (demoDB2.tickets.filter (fun t => t.order == 2)).length = 1 :=
  ⟨by decide, by rfl,
    successful_order_persists_submitted_count demoDB 1 0 [⟨2, 2, 1⟩]
      (by decide) 2 demoDB2 (by rfl)⟩

/-- C7 evaluated on demoDB and a hall-creating request. -/
theorem seat_uniqueness_preserved_by_every_request_check :
    SeatUnique demoDB ∧ SeatUnique (applyOp (.createHall 5 5) demoDB) :=
  ⟨show (demoDB.tickets.map ticketKey).Nodup by decide,
    seat_uniqueness_preserved_by_every_request (.createHall 5 5) demoDB
      (show (demoDB.tickets.map ticketKey).Nodup by decide)⟩

/-- C8 amended claim evaluated on a geometry-update-free run that fills
the single seat of a 1 by 1 hall. -/
theorem tickets_available_nonneg_without_geometry_updates_check :
    (∀ op ∈ ([.createHall 1 1, .createSession 1,
        .createOrder 1 0 [⟨1, 1, 1⟩]] : List Op), op.isGeometryUpdate = false) ∧
    ({ id := 1, cinema_hall := 1 } : MovieSession) ∈
      (runOps [.createHall 1 1, .createSession 1, .createOrder 1 0 [⟨1, 1, 1⟩]]
        emptyDB).sessions ∧
    annotateSession
      (runOps [.createHall 1 1, .createSession 1, .createOrder 1 0 [⟨1, 1, 1⟩]]
        emptyDB) { id := 1, cinema_hall := 1 } =
      some { session_id := 1, tickets_sold := 1, hall_capacity := 1
             tickets_available := 0 } ∧
    (0 : Int) ≤ SessionView.tickets_available
      { session_id := 1, tickets_sold := 1, hall_capacity := 1
        tickets_available := 0 } :=
  ⟨by decide, by decide, by rfl,
    tickets_available_nonneg_without_geometry_updates
      [.createHall 1 1, .createSession 1, .createOrder 1 0 [⟨1, 1, 1⟩]]
      (by decide) { id := 1, cinema_hall := 1 } (by decide)
      { session_id := 1, tickets_sold := 1, hall_capacity := 1
        tickets_available := 0 } (by rfl)⟩

/-- C9 amended claim evaluated on demoDB and a hall-creating request. -/
theorem non_destroy_requests_preserve_orders_and_tickets_check :
    (Op.createHall 5 5).isDestroy = false ∧
    ((∀ o ∈ demoDB.orders, o ∈ (applyOp (.createHall 5 5) demoDB).orders) ∧
     (∀ t ∈ demoDB.tickets, t ∈ (applyOp (.createHall 5 5) demoDB).tickets)) :=
  ⟨by decide,
    non_destroy_requests_preserve_orders_and_tickets (.createHall 5 5) demoDB
      (by decide)⟩

/-- C10 evaluated on demoDB and demoDBOther, which differ only in an order
of user 2: user 1 sees the same single-order response in both. -/
theorem order_list_returns_only_own_orders_check :
    demoDB.orders.filter (fun o => o.user == 1) =
      demoDBOther.orders.filter (fun o => o.user == 1) ∧
    (∀ o ∈ demoDB.orders, o.user = 1 →
      demoDB.tickets.filter (fun t => t.order == o.id) =
        demoDBOther.tickets.filter (fun t => t.order == o.id)) ∧
    ((∀ p ∈ (OrderViewSet.listResponse demoDB 1).1, p.1.user = 1) ∧
      (OrderViewSet.listResponse demoDB 1).1 =
        (OrderViewSet.listResponse demoDBOther 1).1) :=
  ⟨by decide, by decide,
    order_list_returns_only_own_orders demoDB demoDBOther 1
      (by decide) (by decide)⟩

end Cinema
